import Mathlib

/-!
# Verification of `enhanced_logger` (enhanced_logger/enhanced_logger.py)

A shallow embedding of the `EnhancedLogger` module: the instrumentation
wrappers (`TraceLogger.trace`, `PerformanceLogger.log_performance`,
`EnhancedLogger.json_log`), the sinks (`HTTPHandler`, `UniversalDBHandler`)
and the `JsonFormatter`, together with theorems settling the spec's claims
about them.

Conventions of the embedding:
* Python exceptions are modelled with `Except PyExc`; a function that
  "returns normally" is one whose result is `.ok`.
* A wrapped Python callable `f(*args, **kwargs)` is modelled as a Lean
  function `Args → Except PyExc R` (it either returns a value or raises).
* Emitted log records are collected in an explicit list, in emission order.
* External collaborators (the `requests` library, `tracemalloc`, `time.time`,
  the SQLite connection) are modelled by explicit state/outcome parameters.
-/

namespace EnhancedLogger

/-- Python exceptions that the embedded code can raise or propagate. -/
inductive PyExc where
  /-- Python `ValueError(msg)` — raised by `create_connection` for an unknown dialect. -/
  | valueError (msg : String)
  /-- Python `NameError` on an unbound name — what the `except ImportError` branches
  actually raise, since the f-string `f'Module not found!! {pymongo}'`
  mentions the very name whose import just failed. -/
  | nameError (missingName : String)
  /-- Python `TypeError` — raised by `json.dumps` on a non-serializable value. -/
  | typeError (msg : String)
  /-- The `sqlite3.ProgrammingError` — raised when using a closed connection. -/
  | programmingError (msg : String)
  /-- The class `requests.RequestException` and its subclasses (`ConnectionError`,
  `Timeout`, `HTTPError`, ...). -/
  | requestException (detail : String)
  /-- any exception raised by a user-supplied wrapped callable. -/
  | userExc (detail : String)
  deriving DecidableEq, Repr

/-- Severity levels of the base logging facility. -/
inductive Level where
  | debug
  | info
  | warning
  | error
  deriving DecidableEq, Repr

/-- A record as seen by the base facility's plain (string) formatters:
severity level plus the rendered message text.  Used for the records the
`TraceLogger.trace` wrapper emits through `self.debug`. -/
structure Rec where
  level : Level
  msg : String
  deriving DecidableEq, Repr

/-!
## `TraceLogger.trace` (lines 17–24)

```python
def trace(self, func):
    @functools.wraps(func)
    def wrapper(*args, **kwargs):
        self.debug(f"Entering: {func.__name__} with args: {args} and kwargs: {kwargs}")
        result = func(*args, **kwargs)
        self.debug(f"Exiting: {func.__name__} with result: {result}")
        return result
    return wrapper
```

The wrapped callable is `f : α → Except PyExc β` (`α` bundles the positional
and keyword arguments).  `strPos`/`strKw`/`strRes` are Python's `str()` on
the argument tuple, the keyword dict and the result, as interpolated by the
two f-strings.  The wrapper returns the call's outcome together with the
list of records emitted via `self.debug`, in order.  There is no exception
handling in `wrapper`: when `func` raises, the second `self.debug` is never
reached and the exception propagates.
-/

/-- Message of the entry record emitted before invoking the callable. -/
def traceEntryMsg (funcName posStr kwStr : String) : String :=
  "Entering: " ++ funcName ++ " with args: " ++ posStr ++ " and kwargs: " ++ kwStr

/-- Message of the exit record emitted after the callable returns. -/
def traceExitMsg (funcName resStr : String) : String :=
  "Exiting: " ++ funcName ++ " with result: " ++ resStr

/-- The callable produced by `TraceLogger.trace(func)`, applied to `args`:
result of the call paired with the debug records emitted during it. -/
def traceWrapped {α β : Type} (funcName : String)
    (strPos strKw : α → String) (strRes : β → String)
    (f : α → Except PyExc β) (args : α) : Except PyExc β × List Rec :=
  let entry : Rec := ⟨Level.debug, traceEntryMsg funcName (strPos args) (strKw args)⟩
  match f args with
  | .ok result => (.ok result, [entry, ⟨Level.debug, traceExitMsg funcName (strRes result)⟩])
  | .error e => (.error e, [entry])

/-!
## `PerformanceLogger.log_performance` (lines 126–139)

```python
def log_performance(self, func):
    @functools.wraps(func)
    def wrapper(*args, **kwargs):
        start_time = time.time()
        tracemalloc.start()
        result = func(*args, **kwargs)
        current, peak = tracemalloc.get_traced_memory()
        tracemalloc.stop()
        end_time = time.time()
        elapsed_time = end_time - start_time
        self.info(f"Function {func.__name__} executed in {elapsed_time:.4f} seconds. "
                  f"Current memory usage: {current / 10**6:.2f} MB; Peak: {peak / 10**6:.2f} MB")
        return result
    return wrapper
```

External collaborators are modelled explicitly:
* `time.time()` readings: `startTime` (first call) and `endTime` (second
  call), as abstract clock values in `Int`;
* `tracemalloc.get_traced_memory()`: a pair `(current, peak)` of traced
  byte counts (`Nat`, as the facility reports non-negative byte counts);
* the global `tracemalloc` tracing flag: a `Bool` threaded through the
  wrapper (`start()` sets it, `stop()` clears it).
-/

/-- One invocation's readings from the external facilities `time.time` and
`tracemalloc.get_traced_memory`. -/
structure PerfEnv where
  startTime : Int
  endTime : Int
  currentMem : Nat
  peakMem : Nat
  deriving DecidableEq, Repr

/-- The info record emitted by `log_performance`'s wrapper, modelled by the
data its f-string interpolates (function name, elapsed seconds, current and
peak traced memory in bytes). -/
structure PerfRec where
  level : Level
  funcName : String
  elapsedSeconds : Int
  currentMem : Nat
  peakMem : Nat
  deriving DecidableEq, Repr

/-- Outcome of one invocation of the `log_performance`-wrapped callable:
the call's result, the records emitted and the final state of the global
`tracemalloc` tracing flag. -/
structure PerfOutcome (β : Type) where
  result : Except PyExc β
  emitted : List PerfRec
  tracemallocTracing : Bool
  deriving Repr

/-- The callable produced by `PerformanceLogger.log_performance(func)`,
applied to `args`, starting from tracing flag `tm0`.  `tracemalloc.start()`
runs before `func`; when `func` raises, neither `tracemalloc.stop()` nor
`self.info` is reached and the exception propagates. -/
def logPerformanceWrapped {α β : Type} (funcName : String)
    (f : α → Except PyExc β) (args : α) (env : PerfEnv) (_tm0 : Bool) :
    PerfOutcome β :=
  -- start_time = time.time(); tracemalloc.start()  (tracing flag := true)
  match f args with
  | .error e =>
      -- the exception propagates out of `wrapper`; the lines after the call
      -- never run, so the tracing flag stays true and nothing is emitted
      { result := .error e, emitted := [], tracemallocTracing := true }
  | .ok result =>
      -- current, peak = tracemalloc.get_traced_memory(); tracemalloc.stop()
      -- end_time = time.time(); elapsed = end_time - start_time; self.info(...)
      { result := .ok result
        emitted := [{ level := Level.info, funcName := funcName
                      elapsedSeconds := env.endTime - env.startTime
                      currentMem := env.currentMem, peakMem := env.peakMem }]
        tracemallocTracing := false }

/-!
## `UniversalDBHandler` (lines 41–90)

`create_connection` dispatches on the string `db_type`:

```python
def create_connection(self):
    if self.db_type == 'sqlite':
        return sqlite3.connect(self.connection_params['db_path'])
    elif self.db_type == 'mongodb':
        try: import pymongo          # (quoted on one line)
        except ImportError:
            raise Exception(f'Module not found!! {pymongo}')
        return pymongo.MongoClient(self.connection_params['uri'])[self.connection_params['db_name']]
    elif self.db_type == 'postgres':
        try: import psycopg2         # (quoted on one line)
        except ImportError:
            raise Exception(f'Module not found!! {psycopg2}')
        return psycopg2.connect(**self.connection_params)
    else:
        raise ValueError(f"Unsupported database type: {self.db_type}")
```

In the `except ImportError` branches the f-string evaluates the very name
whose import just failed, so what actually propagates is a `NameError`
(while handling the `ImportError`); either way construction raises and no
connection is opened.  Driver availability is an ambient fact of the
Python environment, modelled by `DriverEnv`.  `connection_params` is
modelled as a structure holding the keys the code reads (`db_path`, `uri`,
`db_name`); establishing the connection itself is modelled as succeeding
(connection failures are out of this claim set's scope).
-/

/-- Which optional drivers the running Python environment can import.
`sqlite3` is imported unconditionally at module top, so any state in which
the module runs has it. -/
structure DriverEnv where
  pymongoAvailable : Bool
  psycopg2Available : Bool
  deriving DecidableEq, Repr

/-- The `connection_params` dict, restricted to the keys the code reads. -/
structure ConnParams where
  dbPath : String
  uri : String
  dbName : String
  deriving DecidableEq, Repr

/-- The delivery resource returned by `create_connection`: a
`sqlite3.Connection`, a `pymongo` database handle, or a
`psycopg2` connection. -/
inductive Conn where
  | sqliteConn (dbPath : String)
  | mongoDatabase (uri dbName : String)
  | postgresConn (params : ConnParams)
  deriving DecidableEq, Repr

/-- The method `UniversalDBHandler.create_connection` (lines 48–64). -/
def create_connection (dbType : String) (params : ConnParams) (env : DriverEnv) :
    Except PyExc Conn :=
  if dbType = "sqlite" then
    .ok (.sqliteConn params.dbPath)
  else if dbType = "mongodb" then
    if env.pymongoAvailable then .ok (.mongoDatabase params.uri params.dbName)
    else .error (.nameError "pymongo")
  else if dbType = "postgres" then
    if env.psycopg2Available then .ok (.postgresConn params)
    else .error (.nameError "psycopg2")
  else
    .error (.valueError ("Unsupported database type: " ++ dbType))

/-- The constructor `UniversalDBHandler.__init__` (lines 42–46): stores the configuration
and assigns `self.conn = self.create_connection()`.  An exception from
`create_connection` propagates to the constructor's caller and no handler
object is produced. -/
structure UniversalDBHandler where
  db_type : String
  connection_params : ConnParams
  conn : Conn
  deriving DecidableEq, Repr

/-- Constructing `UniversalDBHandler(db_type, connection_params)`. -/
def UniversalDBHandler.init (dbType : String) (params : ConnParams)
    (env : DriverEnv) : Except PyExc UniversalDBHandler :=
  (create_connection dbType params env).map fun c =>
    { db_type := dbType, connection_params := params, conn := c }

/-- One row of the `logs` table, i.e. the `log_entry` dict built by
`UniversalDBHandler.emit` (lines 67–72). -/
structure LogRow where
  timestamp : String
  name : String
  level : String
  message : String
  deriving DecidableEq, Repr

/-- State of the sqlite delivery resource of one `UniversalDBHandler` with
`db_type == 'sqlite'`: whether `self.conn` is open, and the contents of the
`logs` table behind it. -/
structure SqliteSinkState where
  connOpen : Bool
  logs : List LogRow
  deriving DecidableEq, Repr

/-- The method `UniversalDBHandler.emit` for the sqlite dialect (lines 73–77):
`cursor.execute("INSERT INTO logs ...")` then `self.conn.commit()`.
`sqlite3` raises `ProgrammingError` when the connection has been closed;
the code never reconnects. -/
def sqliteEmit (s : SqliteSinkState) (row : LogRow) : Except PyExc SqliteSinkState :=
  if s.connOpen then
    .ok { s with logs := s.logs ++ [row] }
  else
    .error (.programmingError "Cannot operate on a closed database.")

/-- Calling `close()` on a `UniversalDBHandler` instance.  The `def close(self)` at
lines 87–90 is indented at the level of class `EnhancedLogger`, not inside
`UniversalDBHandler` (whose body ends at line 85), so the handler does not
override `close`: it inherits `logging.Handler.close`, which unregisters
the handler from the module-level handler list and never touches
`self.conn`.  On the delivery resource it is the identity. -/
def handlerClose (s : SqliteSinkState) : SqliteSinkState := s

/-!
## `HTTPHandler` (lines 26–39)

```python
def emit(self, record):
    log_entry = self.format(record)
    try:
        response = requests.request(method=self.method, url=self.url, data=log_entry, headers=self.headers)
        response.raise_for_status()
    except requests.RequestException as e:
        self.handleError(record)
```

The delivery outcome of the single synchronous request is modelled by
`HttpOutcome`: either a final HTTP response with some status code, or a
transport-level failure (connection refused, timeout, DNS failure), which
`requests` raises as a `RequestException` subclass.
-/

/-- Delivery outcome of `requests.request` for one emit. -/
inductive HttpOutcome where
  | response (status : Nat)
  | transportFailure (detail : String)
  deriving DecidableEq, Repr

/-- The call `requests.request(...)`: returns the response's status code, or raises
a `RequestException` on a transport-level failure. -/
def requestsRequest (outcome : HttpOutcome) : Except PyExc Nat :=
  match outcome with
  | .response s => .ok s
  | .transportFailure d => .error (.requestException d)

/-- The call `response.raise_for_status()`: raises `requests.HTTPError` (a
`RequestException` subclass) exactly when the status code is in 400–599;
any other status — including informational and redirect statuses — returns
normally. -/
def raise_for_status (status : Nat) : Except PyExc Unit :=
  if 400 ≤ status ∧ status < 600 then
    .error (.requestException ("HTTPError for status " ++ toString status))
  else
    .ok ()

/-- Whether an exception is an instance of `requests.RequestException`,
the class the `except` clause catches. -/
def isRequestException : PyExc → Bool
  | .requestException _ => true
  | _ => false

/-- What one call of `HTTPHandler.emit` does, as seen from the caller: the
exception propagating out of `emit` (if any) and whether the failure was
routed to `self.handleError` (the local error-isolation path, which writes
a best-effort diagnostic to stderr and never raises). -/
structure HttpEmitOutcome where
  raised : Option PyExc
  handleErrorCalled : Bool
  deriving DecidableEq, Repr

/-- The delivery outcomes the code treats as failures: a transport-level
failure raised by `requests.request`, or a final response whose status
makes `raise_for_status` raise (400–599). -/
def deliveryFails : HttpOutcome → Prop
  | .transportFailure _ => True
  | .response s => 400 ≤ s ∧ s < 600

/-- The method `HTTPHandler.emit` (lines 33–39), given the delivery outcome of its
single request.  (`log_entry = self.format(record)` runs before the `try`
and is independent of the delivery outcome; the rendered payload does not
influence the control flow modelled here.) -/
def HTTPHandler.emit (outcome : HttpOutcome) : HttpEmitOutcome :=
  match (do
      let s ← requestsRequest outcome
      raise_for_status s : Except PyExc Unit) with
  | .ok _ => { raised := none, handleErrorCalled := false }
  | .error e =>
      if isRequestException e then
        { raised := none, handleErrorCalled := true }
      else
        { raised := some e, handleErrorCalled := false }

/-!
## JSON values, `json.dumps`, and a JSON parser

`JsonFormatter.format` (lines 92–103) builds a Python dict and returns
`json.dumps(log_entry)`.  We model JSON documents (`JValue`), Python values
that may appear in a record's `context` (`PyValue`), the conversion
performed by `json.dumps` (which raises `TypeError` on values with no
native serialization — the formatter passes no `default=` hook), the
rendering to text, and a parser, so that "the output is valid JSON that
parses back" can be stated and proved.

Rendering conventions mirrored from `json.dumps`'s defaults: item
separator `", "`, key separator `": "`, keys in dict insertion order.
Escaping: `"` and `\` are backslash-escaped and control characters are
written as `\u00XX`.  (CPython additionally uses the short escapes
`\b\t\n\f\r` for five of the control characters and, under its default
`ensure_ascii=True`, `\uXXXX` escapes for non-ASCII characters; both
choices parse back to the same character, so the round-trip statements are
unaffected.)
-/

mutual
/-- A JSON document. -/
inductive JValue where
  | jNull
  | jBool (b : Bool)
  | jNum (n : Int)
  | jStr (s : String)
  | jArr (xs : JItems)
  | jObj (kvs : JMembers)

/-- The item list of a JSON array. -/
inductive JItems where
  | nil
  | cons (v : JValue) (tl : JItems)

/-- The member list of a JSON object. -/
inductive JMembers where
  | nil
  | cons (key : String) (v : JValue) (tl : JMembers)
end

/-- The decimal digit character for `d < 10`. -/
def digitChar10 (d : Nat) : Char := Char.ofNat (48 + d)

/-- The lowercase hexadecimal digit character for `d < 16` (CPython's
`\uXXXX` escapes use lowercase). -/
def hexChar16 (d : Nat) : Char :=
  if d < 10 then Char.ofNat (48 + d) else Char.ofNat (87 + d)

/-- Decimal digits of `n`, most significant first. -/
def natDigits (n : Nat) : List Char :=
  if n < 10 then [digitChar10 n] else natDigits (n / 10) ++ [digitChar10 (n % 10)]
  decreasing_by exact Nat.div_lt_self (by omega) (by omega)

/-- Rendering of a Python/JSON integer. -/
def intChars (n : Int) : List Char :=
  if n < 0 then '-' :: natDigits n.natAbs else natDigits n.toNat

/-- JSON escaping of one character inside a string literal. -/
def escapeChar (c : Char) : List Char :=
  if c = '"' then ['\\', '"']
  else if c = '\\' then ['\\', '\\']
  else if c.toNat < 32 then
    ['\\', 'u', '0', '0', hexChar16 (c.toNat / 16), hexChar16 (c.toNat % 16)]
  else [c]

/-- JSON escaping of the characters of a string (without the surrounding
quotes). -/
def escStr : List Char → List Char
  | [] => []
  | c :: cs => escapeChar c ++ escStr cs

/-- A rendered JSON string literal, quotes included. -/
def serStr (s : String) : List Char := '"' :: (escStr s.data ++ ['"'])

mutual
/-- Rendering of a JSON document, as performed by `json.dumps` with its
default separators. -/
def serJ : JValue → List Char
  | .jNull => ['n', 'u', 'l', 'l']
  | .jBool true => ['t', 'r', 'u', 'e']
  | .jBool false => ['f', 'a', 'l', 's', 'e']
  | .jNum n => intChars n
  | .jStr s => serStr s
  | .jArr xs => '[' :: (serItems xs ++ [']'])
  | .jObj kvs => '\x7b' :: (serMembers kvs ++ ['\x7d'])

/-- Rendering of array items, separated by `", "`. -/
def serItems : JItems → List Char
  | .nil => []
  | .cons v .nil => serJ v
  | .cons v (.cons w tl) => serJ v ++ ',' :: ' ' :: serItems (.cons w tl)

/-- Rendering of object members, `"key": value` separated by `", "`. -/
def serMembers : JMembers → List Char
  | .nil => []
  | .cons k v .nil => serStr k ++ ':' :: ' ' :: serJ v
  | .cons k v (.cons k2 w tl) =>
      serStr k ++ ':' :: ' ' :: serJ v ++ ',' :: ' ' :: serMembers (.cons k2 w tl)
end

mutual
/-- Fuel measure of a JSON document: an upper bound on the parser fuel its
rendering needs. -/
def sizeJV : JValue → Nat
  | .jNull => 1
  | .jBool _ => 1
  | .jNum _ => 1
  | .jStr _ => 1
  | .jArr xs => 1 + sizeItems xs
  | .jObj kvs => 1 + sizeMembers kvs

/-- Fuel measure of array items. -/
def sizeItems : JItems → Nat
  | .nil => 0
  | .cons v tl => 1 + sizeJV v + sizeItems tl

/-- Fuel measure of object members. -/
def sizeMembers : JMembers → Nat
  | .nil => 0
  | .cons _ v tl => 1 + sizeJV v + sizeMembers tl
end

/-- JSON insignificant whitespace. -/
def isWsChar (c : Char) : Bool :=
  c = ' ' || c = '\t' || c = '\n' || c = '\r'

/-- Skip insignificant whitespace. -/
def skipWs (cs : List Char) : List Char := cs.dropWhile isWsChar

/-- Decimal digit test (on code points, `'0'`–`'9'`). -/
def isDigitChar (c : Char) : Bool := 48 ≤ c.toNat && c.toNat ≤ 57

/-- Value of a hexadecimal digit character. -/
def hexVal (c : Char) : Option Nat :=
  if 48 ≤ c.toNat ∧ c.toNat ≤ 57 then some (c.toNat - 48)
  else if 97 ≤ c.toNat ∧ c.toNat ≤ 102 then some (c.toNat - 87)
  else if 65 ≤ c.toNat ∧ c.toNat ≤ 70 then some (c.toNat - 55)
  else none

/-- Prepend a character to the first component of a parsed pair. -/
def consFst (c : Char) : Option (List Char × List Char) → Option (List Char × List Char)
  | some (cs, rem) => some (c :: cs, rem)
  | none => none

/-- Parse the body of a JSON string literal after the opening quote, up to
and including the closing quote; returns the decoded characters and the
remaining input. -/
def parseStrBody : List Char → Option (List Char × List Char)
  | [] => none
  | c :: rest =>
    if c = '"' then some ([], rest)
    else if c = '\\' then
      match rest with
      | [] => none
      | e :: rest2 =>
        if e = '"' ∨ e = '\\' ∨ e = '/' then consFst e (parseStrBody rest2)
        else if e = 'n' then consFst (Char.ofNat 10) (parseStrBody rest2)
        else if e = 't' then consFst (Char.ofNat 9) (parseStrBody rest2)
        else if e = 'r' then consFst (Char.ofNat 13) (parseStrBody rest2)
        else if e = 'b' then consFst (Char.ofNat 8) (parseStrBody rest2)
        else if e = 'f' then consFst (Char.ofNat 12) (parseStrBody rest2)
        else if e = 'u' then
          match rest2 with
          | h1 :: h2 :: h3 :: h4 :: rest3 =>
            match hexVal h1, hexVal h2, hexVal h3, hexVal h4 with
            | some a, some b, some c3, some d =>
                consFst (Char.ofNat (((a * 16 + b) * 16 + c3) * 16 + d)) (parseStrBody rest3)
            | _, _, _, _ => none
          | _ => none
        else none
    else consFst c (parseStrBody rest)

/-- Match an expected literal character sequence, returning the rest. -/
def expectChars : List Char → List Char → Option (List Char)
  | [], cs => some cs
  | p :: ps, c :: cs => if c = p then expectChars ps cs else none
  | _ :: _, [] => none

/-- Parse a nonempty run of decimal digits as a natural number. -/
def parseNatNum (cs : List Char) : Option (Nat × List Char) :=
  let ds := cs.takeWhile isDigitChar
  if ds = [] then none
  else some (ds.foldl (fun a c => a * 10 + (c.toNat - 48)) 0, cs.dropWhile isDigitChar)

/-- Parse a JSON integer (optional leading minus). -/
def parseIntNum : List Char → Option (Int × List Char)
  | [] => none
  | c :: rest =>
    if c = '-' then
      match parseNatNum rest with
      | some (n, rem) => some (-(n : Int), rem)
      | none => none
    else
      match parseNatNum (c :: rest) with
      | some (n, rem) => some ((n : Int), rem)
      | none => none

mutual
/-- Fuel-indexed recursive-descent parser for a JSON value. -/
def parseVal : Nat → List Char → Option (JValue × List Char)
  | 0, _ => none
  | fuel + 1, cs =>
    match skipWs cs with
    | [] => none
    | c :: rest =>
      if c = 'n' then
        match expectChars ['u', 'l', 'l'] rest with
        | some rem => some (.jNull, rem)
        | none => none
      else if c = 't' then
        match expectChars ['r', 'u', 'e'] rest with
        | some rem => some (.jBool true, rem)
        | none => none
      else if c = 'f' then
        match expectChars ['a', 'l', 's', 'e'] rest with
        | some rem => some (.jBool false, rem)
        | none => none
      else if c = '"' then
        match parseStrBody rest with
        | some (body, rem) => some (.jStr (String.mk body), rem)
        | none => none
      else if c = '[' then
        match skipWs rest with
        | [] => none
        | d :: rem =>
          if d = ']' then some (.jArr .nil, rem)
          else
            match parseItems fuel rest with
            | some (xs, rem2) =>
              match skipWs rem2 with
              | [] => none
              | d2 :: rem3 => if d2 = ']' then some (.jArr xs, rem3) else none
            | none => none
      else if c = '\x7b' then
        match skipWs rest with
        | [] => none
        | d :: rem =>
          if d = '\x7d' then some (.jObj .nil, rem)
          else
            match parseMembers fuel rest with
            | some (kvs, rem2) =>
              match skipWs rem2 with
              | [] => none
              | d2 :: rem3 => if d2 = '\x7d' then some (.jObj kvs, rem3) else none
            | none => none
      else if c = '-' ∨ isDigitChar c then
        match parseIntNum (c :: rest) with
        | some (n, rem) => some (.jNum n, rem)
        | none => none
      else none

/-- Parse the comma-separated item list of a nonempty JSON array. -/
def parseItems : Nat → List Char → Option (JItems × List Char)
  | 0, _ => none
  | fuel + 1, cs =>
    match parseVal fuel cs with
    | some (v, rem) =>
      match skipWs rem with
      | [] => some (.cons v .nil, rem)
      | d :: rem2 =>
        if d = ',' then
          match parseItems fuel rem2 with
          | some (tl, rem3) => some (.cons v tl, rem3)
          | none => none
        else some (.cons v .nil, rem)
    | none => none

/-- Parse the comma-separated member list of a nonempty JSON object. -/
def parseMembers : Nat → List Char → Option (JMembers × List Char)
  | 0, _ => none
  | fuel + 1, cs =>
    match skipWs cs with
    | [] => none
    | c :: rest =>
      if c = '"' then
        match parseStrBody rest with
        | some (key, rem) =>
          match skipWs rem with
          | [] => none
          | d :: rem2 =>
            if d = ':' then
              match parseVal fuel rem2 with
              | some (v, rem3) =>
                match skipWs rem3 with
                | [] => some (.cons (String.mk key) v .nil, rem3)
                | d2 :: rem4 =>
                  if d2 = ',' then
                    match parseMembers fuel rem4 with
                    | some (tl, rem5) => some (.cons (String.mk key) v tl, rem5)
                    | none => none
                  else some (.cons (String.mk key) v .nil, rem3)
              | none => none
            else none
        | none => none
      else none
end

/-- Parse a complete JSON document: the whole input must be consumed.
The fuel `s.length + 1` dominates the measure of any value whose rendering
is `s` (`sizeJV_le_length_serJ`). -/
def jsonLoads (s : String) : Option JValue :=
  match parseVal (s.length + 1) s.data with
  | some (v, []) => some v
  | _ => none

/-- Input does not begin with a decimal digit (so a preceding number
rendering cannot greedily absorb it). -/
def noLeadingDigit : List Char → Bool
  | [] => true
  | c :: _ => !(isDigitChar c)

/-- Input does not begin (after whitespace) with a comma (so a preceding
item-list rendering ends where it should). -/
def notCommaStart (cs : List Char) : Bool :=
  match skipWs cs with
  | [] => true
  | c :: _ => decide (c ≠ ',')

/-- The characters a rendered JSON value can begin with. -/
def isValStart (c : Char) : Prop :=
  c = 'n' ∨ c = 't' ∨ c = 'f' ∨ c = '"' ∨ c = '[' ∨ c = '\x7b' ∨
    c = '-' ∨ isDigitChar c = true

/-!
## Python values and `json.dumps`

A record's `context` attribute (set through `extra={'context': ...}`) can
hold arbitrary Python data.  `PyValue` covers `None`, `bool`, `int`, `str`,
lists/tuples and string-keyed dicts — the shapes `json.dumps` serializes
natively — plus `pyObj`, an opaque object with no native JSON
serialization (a set, a custom class instance, ...), carried by the string
`str` would produce for it.  (Floats are outside the embedding.)
-/

mutual
/-- A Python value that may appear in a record's `context`. -/
inductive PyValue where
  | pyNone
  | pyBool (b : Bool)
  | pyInt (n : Int)
  | pyStr (s : String)
  | pyList (xs : PyItems)
  | pyDict (kvs : PyKVs)
  /-- an object `json.dumps` cannot serialize, described by its `str()`. -/
  | pyObj (reprText : String)

/-- Elements of a Python list/tuple. -/
inductive PyItems where
  | nil
  | cons (v : PyValue) (tl : PyItems)

/-- Entries of a string-keyed Python dict, in insertion order. -/
inductive PyKVs where
  | nil
  | cons (key : String) (v : PyValue) (tl : PyKVs)
end

mutual
/-- The conversion `json.dumps` performs: serializable values become JSON
documents; a value with no native serialization raises `TypeError` (the
formatter passes no `default=` hook). -/
def pyToJson : PyValue → Except PyExc JValue
  | .pyNone => .ok .jNull
  | .pyBool b => .ok (.jBool b)
  | .pyInt n => .ok (.jNum n)
  | .pyStr s => .ok (.jStr s)
  | .pyList xs => (pyItemsToJson xs).map .jArr
  | .pyDict kvs => (pyKVsToJson kvs).map .jObj
  | .pyObj _ => .error (.typeError "Object is not JSON serializable")

/-- The `json.dumps` conversion of list elements. -/
def pyItemsToJson : PyItems → Except PyExc JItems
  | .nil => .ok .nil
  | .cons v tl => do
      let jv ← pyToJson v
      let jtl ← pyItemsToJson tl
      .ok (.cons jv jtl)

/-- The `json.dumps` conversion of dict entries. -/
def pyKVsToJson : PyKVs → Except PyExc JMembers
  | .nil => .ok .nil
  | .cons k v tl => do
      let jv ← pyToJson v
      let jtl ← pyKVsToJson tl
      .ok (.cons k jv jtl)
end

/-- The call `json.dumps(value)`: convert, then render. -/
def jsonDumps (v : PyValue) : Except PyExc String :=
  (pyToJson v).map fun j => String.mk (serJ j)

/-- Whether a Python value is JSON-serializable (no `pyObj` inside). -/
def jsonable (v : PyValue) : Bool := (pyToJson v).isOk

/-!
## `JsonFormatter.format` (lines 92–103)

```python
def format(self, record):
    log_entry = {
        'timestamp': self.formatTime(record, self.datefmt),
        'name': record.name,
        'level': record.levelname,
        'message': record.getMessage(),
        'context': getattr(record, 'context', None),
        'function': record.funcName,
        'line_no': record.lineno,
    }
    return json.dumps(log_entry)
```
-/

/-- The fields of a well-formed `LogRecord` that `JsonFormatter.format`
reads.  `asctime` is the string `self.formatTime(record, self.datefmt)`
returns (base-facility timestamp rendering); `message` is
`record.getMessage()`; `context` is the record's `context` attribute when
the record carries one (`getattr(record, 'context', None)`). -/
structure FmtLogRecord where
  asctime : String
  name : String
  levelname : String
  message : String
  funcName : String
  lineno : Int
  context : Option PyValue

/-- The `log_entry` dict `JsonFormatter.format` builds, as a Python value
(dict literals preserve the written key order). -/
def formatDict (r : FmtLogRecord) : PyValue :=
  .pyDict (.cons "timestamp" (.pyStr r.asctime)
    (.cons "name" (.pyStr r.name)
      (.cons "level" (.pyStr r.levelname)
        (.cons "message" (.pyStr r.message)
          (.cons "context" (r.context.getD .pyNone)
            (.cons "function" (.pyStr r.funcName)
              (.cons "line_no" (.pyInt r.lineno) .nil)))))))

/-- The method `JsonFormatter.format(record)`.  The only failure point is
`json.dumps`. -/
def JsonFormatter.format (r : FmtLogRecord) : Except PyExc String :=
  jsonDumps (formatDict r)

/-- Whether a record's `context` (when present) is JSON-serializable.
Every other field `format` reads is a string or an int and always
serializes. -/
def contextSerializable (r : FmtLogRecord) : Bool :=
  match r.context with
  | none => true
  | some v => jsonable v

/-- Keys of a JSON object, in order. -/
def jObjKeys : JMembers → List String
  | .nil => []
  | .cons k _ tl => k :: jObjKeys tl

/-- Look up a key in a JSON object (first match). -/
def jObjLookup (key : String) : JMembers → Option JValue
  | .nil => none
  | .cons k v tl => if k = key then some v else jObjLookup key tl

/-!
## `EnhancedLogger.json_log` (lines 202–221) and the logger registry

```python
@staticmethod
def json_log(logger_name):
    formatter = EnhancedLogger.JsonFormatter()
    logger = EnhancedLogger.configure_logger(logger_name, formatter)

    def decorator(func):
        @functools.wraps(func)
        def wrapper(*args, **kwargs):
            context_info = {
                'context': {
                    'args': args,
                    'kwargs': kwargs
                }
            }
            logger.info(f"Entering function {func.__name__}", extra=context_info)
            result = func(*args, **kwargs)
            logger.info(f"Exiting function {func.__name__} with result {result}", extra=context_info)
            return result
        return wrapper
    return decorator

@staticmethod
def configure_logger(name, formatter,):
    logger = logging.getLogger(name)
    logger.setLevel(logging.DEBUG)
    ch = logging.StreamHandler()
    ch.setLevel(logging.DEBUG)
    ch.setFormatter(formatter)
    logger.addHandler(ch)
    return logger
```

Evaluating `json_log(logger_name)` — i.e. decorating one function — runs
`configure_logger` once against the process-wide registry
(`logging.getLogger` returns the one logger object registered under
`name`, creating it with no handlers and level `NOTSET` on first use;
`addHandler` appends).  The registry is modelled as a total map from names
to logger states.
-/

/-- Which formatter a handler was configured with. -/
inductive FormatterKind where
  | jsonFmt
  | xmlFmt
  | plainFmt
  deriving DecidableEq, Repr

/-- A handler attached to a logger: a stream handler with its level and
formatter. -/
structure HandlerM where
  level : Option Level
  formatter : FormatterKind
  deriving DecidableEq, Repr

/-- The state of one named logger in the registry: its level (`none` for
`NOTSET`) and its attached handlers, in attachment order. -/
structure LoggerState where
  level : Option Level
  handlers : List HandlerM
  deriving DecidableEq, Repr

/-- The process-wide logger registry: `logging.getLogger(name)` yields the
logger state registered under `name`. -/
def Registry : Type := String → LoggerState

/-- A logger that has never been configured: level `NOTSET`, no handlers. -/
def freshLogger : LoggerState := { level := none, handlers := [] }

/-- The registry of a fresh process. -/
def freshRegistry : Registry := fun _ => freshLogger

/-- The method `EnhancedLogger.configure_logger(name, formatter)` (lines 223–231):
set the named logger's level to `DEBUG` and append one new
`StreamHandler` at level `DEBUG` carrying `formatter`. -/
def configure_logger (name : String) (fmtr : FormatterKind) (reg : Registry) :
    Registry :=
  fun n =>
    if n = name then
      { level := some Level.debug
        handlers := (reg name).handlers ++ [{ level := some Level.debug, formatter := fmtr }] }
    else reg n

/-- The registry effect of evaluating `EnhancedLogger.json_log(logger_name)`
at decoration time: one `configure_logger` call with a fresh
`JsonFormatter`. -/
def json_logDecorate (loggerName : String) (reg : Registry) : Registry :=
  configure_logger loggerName .jsonFmt reg

/-- Numeric severity, as in the base facility
(`DEBUG=10, INFO=20, WARNING=30, ERROR=40`); `NOTSET` handlers process
every record. -/
def levelNo : Level → Nat
  | .debug => 10
  | .info => 20
  | .warning => 30
  | .error => 40

/-- Whether a record at `recLevel` passes a threshold of `lvl`. -/
def passesLevel (lvl : Option Level) (recLevel : Level) : Bool :=
  match lvl with
  | none => true
  | some l => levelNo l ≤ levelNo recLevel

/-- The base facility's `Logger.callHandlers`: each attached handler whose level accepts the
record renders it once (through its formatter).  Returns the renderings,
one per accepting handler, in handler order. -/
def callHandlers (ls : LoggerState) (recLevel : Level) : List FormatterKind :=
  ls.handlers.filterMap fun h =>
    if passesLevel h.level recLevel then some h.formatter else none

/-- Records the `json_log` wrapper emits through `logger.info(msg, extra=...)`:
severity, message text, and the structured `context` attached via `extra`. -/
structure CtxRec where
  level : Level
  msg : String
  context : Option PyValue

/-- The `context` value the wrapper's `context_info` dict attaches:
`{'args': args, 'kwargs': kwargs}`. -/
def jsonLogContext (pyArgs pyKwargs : PyValue) : PyValue :=
  .pyDict (.cons "args" pyArgs (.cons "kwargs" pyKwargs .nil))

/-- The callable produced by applying the `json_log(logger_name)` decorator
to `func` and invoking it on `args`.  `toPyArgs`/`toPyKwargs` are the
Python values of the positional-argument tuple and keyword dict;
`strRes` is `str(result)` as interpolated into the exit message.  Returns
the call's outcome and the records emitted via `logger.info`, in order;
when `func` raises, the exit record is not emitted and the exception
propagates. -/
def jsonLogWrapped {α β : Type} (funcName : String)
    (toPyArgs toPyKwargs : α → PyValue) (strRes : β → String)
    (f : α → Except PyExc β) (args : α) : Except PyExc β × List CtxRec :=
  let ctx := jsonLogContext (toPyArgs args) (toPyKwargs args)
  let entry : CtxRec := ⟨Level.info, "Entering function " ++ funcName, some ctx⟩
  match f args with
  | .ok result =>
      (.ok result,
        [entry,
         ⟨Level.info, "Exiting function " ++ funcName ++ " with result " ++ strRes result,
          some ctx⟩])
  | .error e => (.error e, [entry])

/-- Keys of a list of Python dict entries, in order. -/
def pyKVsKeys : PyKVs → List String
  | .nil => []
  | .cons k _ tl => k :: pyKVsKeys tl

/-- Keys of a Python dict value (`[]` for non-dicts). -/
def pyDictKeys : PyValue → List String
  | .pyDict kvs => pyKVsKeys kvs
  | _ => []

/-!
## Lemmas: characters, whitespace, string escaping
-/

theorem char_eq_of_toNat_eq {a b : Char} (h : a.toNat = b.toNat) : a = b := by
  rw [← Char.ofNat_toNat a, h, Char.ofNat_toNat]

theorem char_ne_of_toNat_ne {a b : Char} (h : a.toNat ≠ b.toNat) : a ≠ b :=
  fun he => h (by rw [he])

theorem isDigitChar_bounds {c : Char} (h : isDigitChar c = true) :
    48 ≤ c.toNat ∧ c.toNat ≤ 57 := by
  simpa [isDigitChar] using h

theorem skipWs_cons_of_not_ws {c : Char} (h : isWsChar c = false) (cs : List Char) :
    skipWs (c :: cs) = c :: cs := by
  simp [skipWs, List.dropWhile_cons, h]

theorem skipWs_space (cs : List Char) : skipWs (' ' :: cs) = skipWs cs := by
  simp [skipWs, List.dropWhile_cons, isWsChar]

theorem expectChars_append (ps rest : List Char) : expectChars ps (ps ++ rest) = some rest := by
  induction ps with
  | nil => rfl
  | cons p ps ih => simp [expectChars, ih]

theorem hexVal_hexChar16 {d : Nat} (h : d < 16) : hexVal (hexChar16 d) = some d := by
  interval_cases d <;> rfl

theorem parseStrBody_escStr (s rest : List Char) :
    parseStrBody (escStr s ++ '"' :: rest) = some (s, rest) := by
  induction s with
  | nil =>
    rw [show escStr [] ++ '"' :: rest = '"' :: rest from rfl, parseStrBody.eq_def]
    simp +decide
  | cons c cs ih =>
    show parseStrBody ((escapeChar c ++ escStr cs) ++ '"' :: rest) = _
    rw [List.append_assoc]
    by_cases hq : c = '"'
    · subst hq
      rw [show escapeChar '"' = ['\\', '"'] from rfl, List.cons_append, List.cons_append,
        List.nil_append, parseStrBody.eq_def]
      simp +decide [consFst, ih]
    · by_cases hb : c = '\\'
      · subst hb
        rw [show escapeChar '\\' = ['\\', '\\'] from rfl, List.cons_append, List.cons_append,
          List.nil_append, parseStrBody.eq_def]
        simp +decide [consFst, ih]
      · by_cases hc : c.toNat < 32
        · have h16a : c.toNat / 16 < 16 := by omega
          have h16b : c.toNat % 16 < 16 := by omega
          rw [show escapeChar c = ['\\', 'u', '0', '0', hexChar16 (c.toNat / 16),
              hexChar16 (c.toNat % 16)] by simp [escapeChar, hq, hb, hc]]
          rw [List.cons_append, parseStrBody.eq_def]
          simp +decide [hexVal_hexChar16 h16a, hexVal_hexChar16 h16b, consFst, ih,
            show hexVal '0' = some 0 from rfl]
          rw [show c.toNat / 16 * 16 + c.toNat % 16 = c.toNat from by omega, Char.ofNat_toNat]
        · rw [show escapeChar c = [c] by simp [escapeChar, hq, hb, hc],
            List.cons_append, List.nil_append, parseStrBody.eq_def]
          simp +decide [hq, hb, consFst, ih]

/-!
## Lemmas: decimal digits and integer rendering
-/

theorem digitChar10_toNat {d : Nat} (h : d < 10) : (digitChar10 d).toNat = 48 + d := by
  interval_cases d <;> rfl

theorem isDigitChar_digitChar10 {d : Nat} (h : d < 10) :
    isDigitChar (digitChar10 d) = true := by
  interval_cases d <;> rfl

theorem natDigits_ne_nil (n : Nat) : natDigits n ≠ [] := by
  rw [natDigits]
  split <;> simp

theorem natDigits_all_digit (n : Nat) : ∀ c ∈ natDigits n, isDigitChar c = true := by
  rw [natDigits]
  split
  case isTrue h =>
    intro c hc
    rw [List.mem_singleton] at hc
    subst hc
    exact isDigitChar_digitChar10 h
  case isFalse h =>
    intro c hc
    rw [List.mem_append] at hc
    rcases hc with h1 | h2
    · exact natDigits_all_digit (n / 10) c h1
    · rw [List.mem_singleton] at h2
      subst h2
      exact isDigitChar_digitChar10 (by omega)
  termination_by n
  decreasing_by exact Nat.div_lt_self (by omega) (by omega)

theorem natDigits_foldl (n : Nat) : ∀ acc : Nat,
    (natDigits n).foldl (fun a c => a * 10 + (c.toNat - 48)) acc =
      acc * 10 ^ (natDigits n).length + n := by
  rw [natDigits]
  split
  case isTrue h =>
    intro acc
    simp only [List.foldl_cons, List.foldl_nil, List.length_singleton, pow_one,
      digitChar10_toNat h]
    omega
  case isFalse h =>
    intro acc
    rw [List.foldl_append, List.length_append, natDigits_foldl (n / 10) acc]
    simp only [List.foldl_cons, List.foldl_nil, List.length_singleton,
      digitChar10_toNat (show n % 10 < 10 by omega)]
    rw [pow_succ]
    have hdm : n / 10 * 10 + n % 10 = n := by omega
    set L := (natDigits (n / 10)).length
    set Y := acc * 10 ^ L
    rw [show acc * (10 ^ L * 10) = Y * 10 from by rw [← mul_assoc]]
    omega
  termination_by n
  decreasing_by exact Nat.div_lt_self (by omega) (by omega)

theorem takeWhile_append_all {p : Char → Bool} (l r : List Char)
    (h : ∀ c ∈ l, p c = true) : (l ++ r).takeWhile p = l ++ r.takeWhile p := by
  induction l with
  | nil => simp
  | cons c cs ih =>
    have hc : p c = true := h c (List.mem_cons_self c cs)
    simp [List.takeWhile_cons, hc]
    exact ih fun x hx => h x (List.mem_cons_of_mem c hx)

theorem dropWhile_append_all {p : Char → Bool} (l r : List Char)
    (h : ∀ c ∈ l, p c = true) : (l ++ r).dropWhile p = r.dropWhile p := by
  induction l with
  | nil => simp
  | cons c cs ih =>
    have hc : p c = true := h c (List.mem_cons_self c cs)
    simp [List.dropWhile_cons, hc]
    exact ih fun x hx => h x (List.mem_cons_of_mem c hx)

theorem takeWhile_eq_nil_of_noLeadingDigit {r : List Char} (h : noLeadingDigit r = true) :
    r.takeWhile isDigitChar = [] := by
  cases r with
  | nil => rfl
  | cons c cs =>
    have : isDigitChar c = false := by simpa [noLeadingDigit] using h
    simp [List.takeWhile_cons, this]

theorem dropWhile_eq_self_of_noLeadingDigit {r : List Char} (h : noLeadingDigit r = true) :
    r.dropWhile isDigitChar = r := by
  cases r with
  | nil => rfl
  | cons c cs =>
    have : isDigitChar c = false := by simpa [noLeadingDigit] using h
    simp [List.dropWhile_cons, this]

theorem parseNatNum_natDigits (n : Nat) (rest : List Char)
    (h : noLeadingDigit rest = true) :
    parseNatNum (natDigits n ++ rest) = some (n, rest) := by
  unfold parseNatNum
  rw [takeWhile_append_all _ _ (natDigits_all_digit n),
    takeWhile_eq_nil_of_noLeadingDigit h, List.append_nil,
    dropWhile_append_all _ _ (natDigits_all_digit n),
    dropWhile_eq_self_of_noLeadingDigit h]
  rw [if_neg (natDigits_ne_nil n), natDigits_foldl n 0]
  simp

theorem parseIntNum_intChars (n : Int) (rest : List Char)
    (h : noLeadingDigit rest = true) :
    parseIntNum (intChars n ++ rest) = some (n, rest) := by
  unfold intChars
  split
  case isTrue hneg =>
    have hp : parseNatNum (natDigits n.natAbs ++ rest) = some (n.natAbs, rest) :=
      parseNatNum_natDigits _ _ h
    rw [List.cons_append, parseIntNum.eq_def]
    simp [hp]
    rw [abs_of_neg hneg, neg_neg]
  case isFalse hpos =>
    obtain ⟨c, cs', hcons⟩ := List.exists_cons_of_ne_nil (natDigits_ne_nil n.toNat)
    have hdig : isDigitChar c = true := by
      apply natDigits_all_digit n.toNat
      rw [hcons]
      exact List.mem_cons_self c cs'
    have hne : c ≠ '-' := by
      have := isDigitChar_bounds hdig
      exact char_ne_of_toNat_ne (by simp +decide; omega)
    have hp : parseNatNum (c :: (cs' ++ rest)) = some (n.toNat, rest) := by
      rw [← List.cons_append, ← hcons]
      exact parseNatNum_natDigits _ _ h
    rw [hcons, List.cons_append, parseIntNum.eq_def]
    simp [hne, hp]
    omega

theorem intChars_head (n : Int) :
    ∃ c cs', intChars n = c :: cs' ∧ (c = '-' ∨ isDigitChar c = true) := by
  unfold intChars
  split
  case isTrue h => exact ⟨'-', _, rfl, Or.inl rfl⟩
  case isFalse h =>
    obtain ⟨c, cs', hcons⟩ := List.exists_cons_of_ne_nil (natDigits_ne_nil n.toNat)
    refine ⟨c, cs', hcons, Or.inr ?_⟩
    apply natDigits_all_digit n.toNat
    rw [hcons]
    exact List.mem_cons_self c cs'

/-!
## Lemmas: heads of rendered values, whitespace stability
-/

theorem ne_of_isDigitChar {c x : Char} (h : isDigitChar c = true)
    (hx : isDigitChar x = false) : c ≠ x := by
  intro he
  rw [he, hx] at h
  simp at h

theorem isValStart_facts {c : Char} (h : isValStart c) :
    isWsChar c = false ∧ c ≠ ']' ∧ c ≠ '\x7d' ∧ c ≠ ',' ∧ c ≠ ':' := by
  rcases h with h1 | h1 | h1 | h1 | h1 | h1 | h1 | hd
  · subst h1; decide
  · subst h1; decide
  · subst h1; decide
  · subst h1; decide
  · subst h1; decide
  · subst h1; decide
  · subst h1; decide
  · have hb := isDigitChar_bounds hd
    refine ⟨?_, ?_, ?_, ?_, ?_⟩
    · have h1 : c ≠ ' ' := char_ne_of_toNat_ne (show c.toNat ≠ 32 by omega)
      have h2 : c ≠ '\t' := char_ne_of_toNat_ne (show c.toNat ≠ 9 by omega)
      have h3 : c ≠ '\n' := char_ne_of_toNat_ne (show c.toNat ≠ 10 by omega)
      have h4 : c ≠ '\r' := char_ne_of_toNat_ne (show c.toNat ≠ 13 by omega)
      simp [isWsChar, h1, h2, h3, h4]
    · exact char_ne_of_toNat_ne (show c.toNat ≠ 93 by omega)
    · exact char_ne_of_toNat_ne (show c.toNat ≠ 125 by omega)
    · exact char_ne_of_toNat_ne (show c.toNat ≠ 44 by omega)
    · exact char_ne_of_toNat_ne (show c.toNat ≠ 58 by omega)

theorem serJ_head (v : JValue) : ∃ c cs', serJ v = c :: cs' ∧ isValStart c := by
  cases v with
  | jNull => exact ⟨'n', ['u', 'l', 'l'], by simp [serJ], by simp +decide [isValStart]⟩
  | jBool b =>
    cases b with
    | true => exact ⟨'t', ['r', 'u', 'e'], by simp [serJ], by simp +decide [isValStart]⟩
    | false => exact ⟨'f', ['a', 'l', 's', 'e'], by simp [serJ], by simp +decide [isValStart]⟩
  | jNum n =>
    obtain ⟨c, cs', hic, hstart⟩ := intChars_head n
    refine ⟨c, cs', by simp [serJ, hic], ?_⟩
    rcases hstart with h1 | h1
    · subst h1; simp +decide [isValStart]
    · right; right; right; right; right; right; right; exact h1
  | jStr s =>
    exact ⟨'"', escStr s.data ++ ['"'], by simp [serJ, serStr],
      by simp +decide [isValStart]⟩
  | jArr xs =>
    exact ⟨'[', serItems xs ++ [']'], by simp [serJ], by simp +decide [isValStart]⟩
  | jObj kvs =>
    exact ⟨'\x7b', serMembers kvs ++ ['\x7d'], by simp [serJ],
      by simp +decide [isValStart]⟩

theorem serItems_cons_head (v : JValue) (tl : JItems) :
    ∃ c cs', serItems (.cons v tl) = c :: cs' ∧ isValStart c := by
  obtain ⟨c, cs', hcons, hs⟩ := serJ_head v
  cases tl with
  | nil => exact ⟨c, cs', by simp [serItems, hcons], hs⟩
  | cons w tl2 =>
    exact ⟨c, cs' ++ ',' :: ' ' :: serItems (.cons w tl2),
      by simp [serItems, hcons], hs⟩

theorem skipWs_serJ_append (v : JValue) (rest : List Char) :
    skipWs (serJ v ++ rest) = serJ v ++ rest := by
  obtain ⟨c, cs', hcons, hs⟩ := serJ_head v
  rw [hcons, List.cons_append, skipWs_cons_of_not_ws (isValStart_facts hs).1]

theorem skipWs_serItems_append (v : JValue) (tl : JItems) (rest : List Char) :
    skipWs (serItems (.cons v tl) ++ rest) = serItems (.cons v tl) ++ rest := by
  obtain ⟨c, cs', hcons, hs⟩ := serItems_cons_head v tl
  rw [hcons, List.cons_append, skipWs_cons_of_not_ws (isValStart_facts hs).1]

theorem serMembers_cons_head (k : String) (v : JValue) (tl : JMembers) :
    ∃ cs', serMembers (.cons k v tl) = '"' :: cs' := by
  cases tl with
  | nil =>
    exact ⟨(escStr k.data ++ ['"']) ++ ':' :: ' ' :: serJ v, by simp [serMembers, serStr]⟩
  | cons k2 w tl2 =>
    exact ⟨(escStr k.data ++ ['"']) ++ ':' :: ' ' :: serJ v ++
      ',' :: ' ' :: serMembers (.cons k2 w tl2), by simp [serMembers, serStr]⟩

theorem skipWs_serMembers_append (k : String) (v : JValue) (tl : JMembers)
    (rest : List Char) :
    skipWs (serMembers (.cons k v tl) ++ rest) = serMembers (.cons k v tl) ++ rest := by
  obtain ⟨cs', hc⟩ := serMembers_cons_head k v tl
  rw [hc, List.cons_append,
    skipWs_cons_of_not_ws (show isWsChar '"' = false from rfl)]

theorem sizeJV_pos (v : JValue) : 1 ≤ sizeJV v := by
  cases v <;> simp [sizeJV]

theorem stringMkData (s : String) : String.mk s.data = s := rfl

/-!
## The serialize-then-parse round trip
-/

/-- Parsing inverts rendering, for every fuel bound dominating the value's
measure: the conjunction covers values, nonempty array item lists and
nonempty object member lists, by induction on the fuel. -/
theorem parse_ser_roundtrip (fuel : Nat) :
    (∀ v rest cs, sizeJV v ≤ fuel → noLeadingDigit rest = true →
        skipWs cs = serJ v ++ rest → parseVal fuel cs = some (v, rest)) ∧
    (∀ v tl rest cs, sizeItems (.cons v tl) ≤ fuel → noLeadingDigit rest = true →
        notCommaStart rest = true → skipWs cs = serItems (.cons v tl) ++ rest →
        parseItems fuel cs = some (.cons v tl, rest)) ∧
    (∀ k v tl rest cs, sizeMembers (.cons k v tl) ≤ fuel → noLeadingDigit rest = true →
        notCommaStart rest = true → skipWs cs = serMembers (.cons k v tl) ++ rest →
        parseMembers fuel cs = some (.cons k v tl, rest)) := by
  induction fuel with
  | zero =>
    refine ⟨fun v rest cs hsz _ _ => absurd hsz (by have := sizeJV_pos v; omega),
      fun v tl rest cs hsz _ _ _ => absurd hsz (by simp only [sizeItems]; omega),
      fun k v tl rest cs hsz _ _ _ => absurd hsz (by simp only [sizeMembers]; omega)⟩
  | succ f ih =>
    obtain ⟨ihV, ihI, ihM⟩ := ih
    refine ⟨?_, ?_, ?_⟩
    · -- values
      intro v rest cs hsz hnd hskip
      cases v with
      | jNull =>
        have hs : skipWs cs = 'n' :: 'u' :: 'l' :: 'l' :: rest := by
          simpa [serJ] using hskip
        rw [parseVal.eq_def]
        simp +decide [hs, expectChars]
      | jBool b =>
        cases b with
        | true =>
          have hs : skipWs cs = 't' :: 'r' :: 'u' :: 'e' :: rest := by
            simpa [serJ] using hskip
          rw [parseVal.eq_def]
          simp +decide [hs, expectChars]
        | false =>
          have hs : skipWs cs = 'f' :: 'a' :: 'l' :: 's' :: 'e' :: rest := by
            simpa [serJ] using hskip
          rw [parseVal.eq_def]
          simp +decide [hs, expectChars]
      | jStr s =>
        have hs : skipWs cs = '"' :: (escStr s.data ++ '"' :: rest) := by
          simpa [serJ, serStr, List.append_assoc] using hskip
        rw [parseVal.eq_def]
        simp +decide [hs, parseStrBody_escStr, stringMkData]
      | jNum n =>
        obtain ⟨c, cs0, hic, hstart⟩ := intChars_head n
        have hs : skipWs cs = c :: (cs0 ++ rest) := by simpa [serJ, hic] using hskip
        have hp : parseIntNum (c :: (cs0 ++ rest)) = some (n, rest) := by
          rw [← List.cons_append, ← hic]
          exact parseIntNum_intChars n rest hnd
        rw [parseVal.eq_def]
        rcases hstart with h1 | h1
        · subst h1
          simp +decide [hs, hp]
        · have hn1 : c ≠ 'n' := ne_of_isDigitChar h1 rfl
          have hn2 : c ≠ 't' := ne_of_isDigitChar h1 rfl
          have hn3 : c ≠ 'f' := ne_of_isDigitChar h1 rfl
          have hn4 : c ≠ '"' := ne_of_isDigitChar h1 rfl
          have hn5 : c ≠ '[' := ne_of_isDigitChar h1 rfl
          have hn6 : c ≠ '\x7b' := ne_of_isDigitChar h1 rfl
          simp [hs, hn1, hn2, hn3, hn4, hn5, hn6, h1, hp]
      | jArr xs =>
        cases xs with
        | nil =>
          have hs : skipWs cs = '[' :: ']' :: rest := by
            simpa [serJ, serItems] using hskip
          rw [parseVal.eq_def]
          simp +decide [hs, skipWs_cons_of_not_ws (show isWsChar ']' = false from rfl)]
        | cons w tl =>
          obtain ⟨c0, cs0, hch, hcs⟩ := serItems_cons_head w tl
          have hf := isValStart_facts hcs
          have hs : skipWs cs = '[' :: c0 :: (cs0 ++ ']' :: rest) := by
            simpa [serJ, List.append_assoc, hch] using hskip
          have hsw : skipWs (c0 :: (cs0 ++ ']' :: rest)) = c0 :: (cs0 ++ ']' :: rest) :=
            skipWs_cons_of_not_ws hf.1 _
          have hitems : parseItems f (c0 :: (cs0 ++ ']' :: rest)) =
              some (.cons w tl, ']' :: rest) := by
            rw [← List.cons_append, ← hch]
            refine ihI w tl (']' :: rest) _ ?_ rfl rfl (skipWs_serItems_append w tl _)
            simp only [sizeJV] at hsz
            omega
          have hsw2 : skipWs (']' :: rest) = ']' :: rest :=
            skipWs_cons_of_not_ws (show isWsChar ']' = false from rfl) _
          rw [parseVal.eq_def]
          simp +decide [hs, hsw, hitems, hf.2.1, hsw2]
      | jObj kvs =>
        cases kvs with
        | nil =>
          have hs : skipWs cs = '\x7b' :: '\x7d' :: rest := by
            simpa [serJ, serMembers] using hskip
          rw [parseVal.eq_def]
          simp +decide [hs, skipWs_cons_of_not_ws (show isWsChar '\x7d' = false from rfl)]
        | cons k w tl =>
          obtain ⟨cs0, hch⟩ := serMembers_cons_head k w tl
          have hs : skipWs cs = '\x7b' :: '"' :: (cs0 ++ '\x7d' :: rest) := by
            simpa [serJ, List.append_assoc, hch] using hskip
          have hsw : skipWs ('"' :: (cs0 ++ '\x7d' :: rest)) =
              '"' :: (cs0 ++ '\x7d' :: rest) :=
            skipWs_cons_of_not_ws (show isWsChar '"' = false from rfl) _
          have hmembers : parseMembers f ('"' :: (cs0 ++ '\x7d' :: rest)) =
              some (.cons k w tl, '\x7d' :: rest) := by
            rw [← List.cons_append, ← hch]
            refine ihM k w tl ('\x7d' :: rest) _ ?_ rfl rfl (skipWs_serMembers_append k w tl _)
            simp only [sizeJV] at hsz
            omega
          have hsw2 : skipWs ('\x7d' :: rest) = '\x7d' :: rest :=
            skipWs_cons_of_not_ws (show isWsChar '\x7d' = false from rfl) _
          rw [parseVal.eq_def]
          simp +decide [hs, hsw, hmembers, hsw2]
    · -- items of a nonempty array
      intro v tl rest cs hsz hnd hnc hskip
      cases tl with
      | nil =>
        have hv : parseVal f cs = some (v, rest) := by
          refine ihV v rest cs ?_ hnd (by simpa [serItems] using hskip)
          simp only [sizeItems] at hsz
          omega
        rw [parseItems.eq_def]
        rcases hrest : skipWs rest with _ | ⟨d, rem⟩
        · simp [hv, hrest]
        · have hd : d ≠ ',' := by
            rw [notCommaStart, hrest] at hnc
            simpa using hnc
          simp [hv, hrest, hd]
      | cons w tl2 =>
        have hszv : sizeJV v ≤ f := by
          simp only [sizeItems] at hsz
          omega
        have hszi : sizeItems (.cons w tl2) ≤ f := by
          simp only [sizeItems] at hsz ⊢
          omega
        have hv : parseVal f cs =
            some (v, ',' :: ' ' :: (serItems (.cons w tl2) ++ rest)) := by
          refine ihV v _ cs hszv rfl (by simpa [serItems, List.append_assoc] using hskip)
        have hitems : parseItems f (' ' :: (serItems (.cons w tl2) ++ rest)) =
            some (.cons w tl2, rest) := by
          refine ihI w tl2 rest _ hszi hnd hnc ?_
          rw [skipWs_space]
          exact skipWs_serItems_append w tl2 rest
        have hsw : skipWs (',' :: ' ' :: (serItems (.cons w tl2) ++ rest)) =
            ',' :: ' ' :: (serItems (.cons w tl2) ++ rest) :=
          skipWs_cons_of_not_ws (show isWsChar ',' = false from rfl) _
        rw [parseItems.eq_def]
        simp +decide [hv, hsw, hitems]
    · -- members of a nonempty object
      intro k v tl rest cs hsz hnd hnc hskip
      cases tl with
      | nil =>
        have hszv : sizeJV v ≤ f := by
          simp only [sizeMembers] at hsz
          omega
        have hs : skipWs cs =
            '"' :: (escStr k.data ++ '"' :: ':' :: ' ' :: (serJ v ++ rest)) := by
          simpa [serMembers, serStr, List.append_assoc] using hskip
        have hv0 : parseVal f (' ' :: (serJ v ++ rest)) = some (v, rest) := by
          refine ihV v rest _ hszv hnd ?_
          rw [skipWs_space]
          exact skipWs_serJ_append v rest
        rw [parseMembers.eq_def]
        have hsb : parseStrBody (escStr k.data ++ '"' :: ':' :: ' ' :: (serJ v ++ rest)) =
            some (k.data, ':' :: ' ' :: (serJ v ++ rest)) := parseStrBody_escStr _ _
        have hsw : skipWs (':' :: ' ' :: (serJ v ++ rest)) =
            ':' :: ' ' :: (serJ v ++ rest) :=
          skipWs_cons_of_not_ws (show isWsChar ':' = false from rfl) _
        rcases hrest : skipWs rest with _ | ⟨d, rem⟩
        · simp +decide [hs, hsb, hsw, hv0, hrest, stringMkData]
        · have hd : d ≠ ',' := by
            rw [notCommaStart, hrest] at hnc
            simpa using hnc
          simp +decide [hs, hsb, hsw, hv0, hrest, hd, stringMkData]
      | cons k2 w tl2 =>
        have hszv : sizeJV v ≤ f := by
          simp only [sizeMembers] at hsz
          omega
        have hszm : sizeMembers (.cons k2 w tl2) ≤ f := by
          simp only [sizeMembers] at hsz ⊢
          omega
        have hs : skipWs cs = '"' :: (escStr k.data ++ '"' :: ':' :: ' ' ::
            (serJ v ++ ',' :: ' ' :: (serMembers (.cons k2 w tl2) ++ rest))) := by
          simpa [serMembers, serStr, List.append_assoc] using hskip
        have hv0 : parseVal f
            (' ' :: (serJ v ++ ',' :: ' ' :: (serMembers (.cons k2 w tl2) ++ rest))) =
            some (v, ',' :: ' ' :: (serMembers (.cons k2 w tl2) ++ rest)) := by
          refine ihV v _ _ hszv rfl ?_
          rw [skipWs_space]
          exact skipWs_serJ_append v _
        have hm0 : parseMembers f (' ' :: (serMembers (.cons k2 w tl2) ++ rest)) =
            some (.cons k2 w tl2, rest) := by
          refine ihM k2 w tl2 rest _ hszm hnd hnc ?_
          rw [skipWs_space]
          exact skipWs_serMembers_append k2 w tl2 rest
        rw [parseMembers.eq_def]
        have hsb := parseStrBody_escStr k.data
          (':' :: ' ' :: (serJ v ++ ',' :: ' ' :: (serMembers (.cons k2 w tl2) ++ rest)))
        have hsw : skipWs (':' :: ' ' ::
            (serJ v ++ ',' :: ' ' :: (serMembers (.cons k2 w tl2) ++ rest))) =
            ':' :: ' ' :: (serJ v ++ ',' :: ' ' :: (serMembers (.cons k2 w tl2) ++ rest)) :=
          skipWs_cons_of_not_ws (show isWsChar ':' = false from rfl) _
        have hsw2 : skipWs (',' :: ' ' :: (serMembers (.cons k2 w tl2) ++ rest)) =
            ',' :: ' ' :: (serMembers (.cons k2 w tl2) ++ rest) :=
          skipWs_cons_of_not_ws (show isWsChar ',' = false from rfl) _
        simp +decide [hs, hsb, hsw, hsw2, hv0, hm0, stringMkData]

mutual
theorem sizeJV_le_length_serJ : ∀ v : JValue, sizeJV v ≤ (serJ v).length
  | .jNull => by simp [sizeJV, serJ]
  | .jBool b => by cases b <;> simp [sizeJV, serJ]
  | .jNum n => by
      obtain ⟨c, cs', h, _⟩ := intChars_head n
      simp [sizeJV, serJ, h]
  | .jStr s => by simp [sizeJV, serJ, serStr]
  | .jArr xs => by
      have := sizeItems_le_length xs
      simp [sizeJV, serJ]
      omega
  | .jObj kvs => by
      have := sizeMembers_le_length kvs
      simp [sizeJV, serJ]
      omega

theorem sizeItems_le_length : ∀ xs : JItems, sizeItems xs ≤ (serItems xs).length + 1
  | .nil => by simp [sizeItems, serItems]
  | .cons v .nil => by
      have := sizeJV_le_length_serJ v
      simp [sizeItems, serItems]
      omega
  | .cons v (.cons w tl) => by
      have h1 := sizeJV_le_length_serJ v
      have h2 := sizeItems_le_length (.cons w tl)
      simp [sizeItems, serItems] at h2 ⊢
      omega

theorem sizeMembers_le_length : ∀ kvs : JMembers, sizeMembers kvs ≤ (serMembers kvs).length + 1
  | .nil => by simp [sizeMembers, serMembers]
  | .cons _ v .nil => by
      have := sizeJV_le_length_serJ v
      simp [sizeMembers, serMembers, serStr]
      omega
  | .cons _ v (.cons k2 w tl) => by
      have h1 := sizeJV_le_length_serJ v
      have h2 := sizeMembers_le_length (.cons k2 w tl)
      simp [sizeMembers, serMembers, serStr] at h2 ⊢
      omega
end

/-- Parsing a rendered document recovers it exactly: `json.loads` inverts
`json.dumps` on every JSON document. -/
theorem jsonLoads_serJ (v : JValue) : jsonLoads (String.mk (serJ v)) = some v := by
  have hsz : sizeJV v ≤ (serJ v).length + 1 :=
    le_trans (sizeJV_le_length_serJ v) (by omega)
  have hskip : skipWs (serJ v) = serJ v ++ [] := by
    rw [List.append_nil]
    have := skipWs_serJ_append v []
    rwa [List.append_nil] at this
  have h := (parse_ser_roundtrip ((serJ v).length + 1)).1 v [] (serJ v) hsz rfl hskip
  show (match parseVal ((serJ v).length + 1) (serJ v) with
    | some (v, []) => some v
    | _ => none) = some v
  rw [h]

theorem except_ok_bind {ε α β : Type} (a : α) (f : α → Except ε β) :
    (Except.ok a : Except ε α) >>= f = f a := rfl

theorem except_error_bind {ε α β : Type} (e : ε) (f : α → Except ε β) :
    (Except.error e : Except ε α) >>= f = .error e := rfl

theorem jsonable_ok {v : PyValue} (h : jsonable v = true) : ∃ j, pyToJson v = .ok j := by
  unfold jsonable at h
  rcases hj : pyToJson v with e | j
  · rw [hj] at h
    simp [Except.isOk, Except.toBool] at h
  · exact ⟨j, rfl⟩

/-- Conversion of the `log_entry` dict: six string/int fields always
serialize; the `context` field serializes to `jctx`. -/
theorem formatDict_toJson (r : FmtLogRecord) (jctx : JValue)
    (hctx : pyToJson (r.context.getD .pyNone) = .ok jctx) :
    pyToJson (formatDict r) =
      .ok (.jObj (.cons "timestamp" (.jStr r.asctime)
        (.cons "name" (.jStr r.name)
          (.cons "level" (.jStr r.levelname)
            (.cons "message" (.jStr r.message)
              (.cons "context" jctx
                (.cons "function" (.jStr r.funcName)
                  (.cons "line_no" (.jNum r.lineno) .nil)))))))) := by
  simp [formatDict, pyToJson, pyKVsToJson, hctx, except_ok_bind, Except.map]

theorem context_ok_of_serializable {r : FmtLogRecord}
    (h : contextSerializable r = true) :
    ∃ jctx, pyToJson (r.context.getD .pyNone) = .ok jctx ∧
      (r.context = none → jctx = .jNull) := by
  cases hc : r.context with
  | none => exact ⟨.jNull, by simp [hc, pyToJson], fun _ => rfl⟩
  | some v =>
    rw [contextSerializable, hc] at h
    obtain ⟨j, hj⟩ := jsonable_ok h
    exact ⟨j, by simp [hc, hj], by simp [hc]⟩

/-!
## Claim theorems
-/

/-- C1 (code bug, evaluated at the failing input): `UniversalDBHandler` does
not override `close` — the `def close` at lines 87–90 sits at
`EnhancedLogger` class level, so `close()` on a sqlite handler resolves to
`logging.Handler.close`, which leaves `self.conn` open.  Starting from an
open connection with an empty `logs` table, calling `close()` and then
`emit(record)` leaves the connection open (the resource is never released)
and the emit **succeeds**, inserting the row — where the claim requires the
resource to be released exactly once and a post-close `emit` to fail. -/
theorem c1_emit_after_close_succeeds :
    handlerClose { connOpen := true, logs := [] } = { connOpen := true, logs := [] } ∧
    sqliteEmit (handlerClose { connOpen := true, logs := [] })
      { timestamp := "2024-01-01 00:00:00", name := "db_logger", level := "INFO",
        message := "emitted after close" } =
      .ok { connOpen := true,
            logs := [{ timestamp := "2024-01-01 00:00:00", name := "db_logger",
                       level := "INFO", message := "emitted after close" }] } :=
  ⟨rfl, by simp [handlerClose, sqliteEmit]⟩

/-- C2: constructing `UniversalDBHandler` with an unrecognized dialect tag,
or with the `mongodb`/`postgres` dialect while the respective driver cannot
be imported, raises at construction: `__init__` propagates the exception
from `create_connection` to its caller and no connection is opened (the
result is an error, not a handler). -/
theorem c2_construction_fails_on_bad_dialect_or_missing_driver
    (dbType : String) (params : ConnParams) (env : DriverEnv)
    (h : dbType ∉ (["sqlite", "mongodb", "postgres"] : List String) ∨
        (dbType = "mongodb" ∧ env.pymongoAvailable = false) ∨
        (dbType = "postgres" ∧ env.psycopg2Available = false)) :
    ∃ e, UniversalDBHandler.init dbType params env = .error e := by
  rcases h with h | ⟨h, hm⟩ | ⟨h, hp⟩
  · have h1 : ¬(dbType = "sqlite") ∧ ¬(dbType = "mongodb") ∧ ¬(dbType = "postgres") := by
      simpa using h
    refine ⟨.valueError ("Unsupported database type: " ++ dbType), ?_⟩
    simp [UniversalDBHandler.init, create_connection, h1.1, h1.2.1, h1.2.2, Except.map]
  · subst h
    refine ⟨.nameError "pymongo", ?_⟩
    simp +decide [UniversalDBHandler.init, create_connection, hm, Except.map]
  · subst h
    refine ⟨.nameError "psycopg2", ?_⟩
    simp +decide [UniversalDBHandler.init, create_connection, hp, Except.map]

/-- C2 witness: the unrecognized dialect tag `"oracle"` fails at
construction. -/
theorem c2_witness :
    ∃ e, UniversalDBHandler.init "oracle"
      { dbPath := "logs.db", uri := "", dbName := "" }
      { pymongoAvailable := true, psycopg2Available := true } = .error e :=
  c2_construction_fails_on_bad_dialect_or_missing_driver "oracle" _ _ (Or.inl (by decide))

/-- C3 counterexample: a well-formed record whose `context` holds a value
with no native JSON serialization.  `json.dumps` is called without a
`default=` hook, so `format` raises `TypeError` instead of stringifying —
refuting "formatting a well-formed `LogRecord` never fails". -/
theorem c3_counterexample :
    JsonFormatter.format
      { asctime := "2024-01-01 00:00:00,000", name := "json_logger",
        levelname := "INFO", message := "login", funcName := "handle", lineno := 10,
        context := some (.pyDict (.cons "user" (.pyObj "<User instance>") .nil)) } =
      .error (.typeError "Object is not JSON serializable") := by
  simp [JsonFormatter.format, jsonDumps, formatDict, pyToJson, pyKVsToJson,
    except_ok_bind, except_error_bind, Except.map]

/-- C3 amended: `JsonFormatter.format` never fails on a well-formed record
**whose context is JSON-serializable (or absent)**; when the context holds
a value with no native serialization, `json.dumps` raises `TypeError` (the
formatter does not stringify it). -/
theorem c3_format_total_on_serializable_context (r : FmtLogRecord)
    (h : contextSerializable r = true) :
    ∃ s, JsonFormatter.format r = .ok s := by
  obtain ⟨jctx, hctx, _⟩ := context_ok_of_serializable h
  rw [JsonFormatter.format, jsonDumps, formatDict_toJson r jctx hctx]
  exact ⟨_, rfl⟩

/-- C3 witness: `format` succeeds on a record carrying the test suite's
context `{'user_id': 12345, 'transaction_id': 'abcde12345'}`. -/
theorem c3_witness :
    ∃ s, JsonFormatter.format
      { asctime := "2024-01-01 00:00:00,000", name := "json_logger",
        levelname := "INFO", message := "with context", funcName := "run", lineno := 50,
        context := some (.pyDict (.cons "user_id" (.pyInt 12345)
          (.cons "transaction_id" (.pyStr "abcde12345") .nil))) } = .ok s :=
  c3_format_total_on_serializable_context _
    (by simp [contextSerializable, jsonable, pyToJson, pyKVsToJson, except_ok_bind,
      Except.map, Except.isOk, Except.toBool])

/-- C4 counterexample: a final response with status 304 — a non-success
HTTP status — is treated as a successful delivery: `raise_for_status`
raises only for 400–599, so `handleError` is not called and the failure is
not routed anywhere. -/
theorem c4_counterexample :
    HTTPHandler.emit (.response 304) = { raised := none, handleErrorCalled := false } ∧
    ¬ deliveryFails (.response 304) := by
  constructor
  · simp +decide [HTTPHandler.emit, requestsRequest, raise_for_status, except_ok_bind,
      isRequestException]
  · simp [deliveryFails]

/-- C4 amended: for every delivery outcome `HTTPHandler.emit` returns
normally (no exception escapes the sink), and the failure is routed to
`handleError` exactly when the outcome is a transport-level failure or a
final response with status 400–599 (the statuses `raise_for_status`
treats as errors); other statuses, including non-success 1xx/3xx, are
treated as delivered. -/
theorem c4_emit_never_raises_and_isolates_failures (outcome : HttpOutcome) :
    (HTTPHandler.emit outcome).raised = none ∧
    ((HTTPHandler.emit outcome).handleErrorCalled = true ↔ deliveryFails outcome) := by
  cases outcome with
  | response s =>
    by_cases h : 400 ≤ s ∧ s < 600
    · simp [HTTPHandler.emit, requestsRequest, raise_for_status, h, except_ok_bind,
        isRequestException, deliveryFails]
    · simp [HTTPHandler.emit, requestsRequest, raise_for_status, h, except_ok_bind,
        isRequestException, deliveryFails]
  | transportFailure d =>
    simp [HTTPHandler.emit, requestsRequest, isRequestException, deliveryFails,
      except_error_bind]

/-- C5: the `trace`-wrapped callable emits the entry debug record (naming
the callable and its positional/keyword arguments), invokes the callable,
and on normal return emits the exit debug record (naming the callable and
its result) — exactly two debug records — passing the return value through
unchanged; when the callable raises, the exit record is not emitted (one
record only) and the exception propagates unchanged. -/
theorem c5_trace_wrapper {α β : Type} (funcName : String)
    (strPos strKw : α → String) (strRes : β → String)
    (f : α → Except PyExc β) (args : α) :
    (∀ r, f args = .ok r →
      traceWrapped funcName strPos strKw strRes f args =
        (.ok r,
         [⟨.debug, traceEntryMsg funcName (strPos args) (strKw args)⟩,
          ⟨.debug, traceExitMsg funcName (strRes r)⟩])) ∧
    (∀ e, f args = .error e →
      traceWrapped funcName strPos strKw strRes f args =
        (.error e, [⟨.debug, traceEntryMsg funcName (strPos args) (strKw args)⟩])) := by
  constructor <;> intro x hx <;> simp [traceWrapped, hx]

/-- C5 witness: wrapping `add(x, y) = x + y` and calling `add(5, 10)`
emits exactly the entry and exit debug records and returns `15`. -/
theorem c5_trace_wrapper_witness :
    traceWrapped "add" (fun p : Int × Int => toString (p.1, p.2)) (fun _ => "\x7b\x7d")
      toString (fun p => .ok (p.1 + p.2)) (5, 10) =
      (.ok 15,
       [⟨.debug, traceEntryMsg "add" (toString ((5 : Int), (10 : Int))) "\x7b\x7d"⟩,
        ⟨.debug, traceExitMsg "add" (toString (15 : Int))⟩]) :=
  (c5_trace_wrapper "add" (fun p : Int × Int => toString (p.1, p.2)) (fun _ => "\x7b\x7d")
    toString (fun p => .ok (p.1 + p.2)) (5, 10)).1 15 rfl

/-- C6: when the wrapped callable returns, `log_performance`'s wrapper
emits exactly one info record carrying the function name, the elapsed
wall-clock seconds between the two `time.time()` readings, and the current
and peak traced memory; under `tracemalloc`'s invariant
`current ≤ peak`, the record satisfies `peak_memory ≥ current_memory ≥ 0`
(byte counts are naturals).  The return value passes through unchanged;
when the callable raises, no record is emitted and the exception
propagates. -/
theorem c6_performance_wrapper {α β : Type} (funcName : String)
    (f : α → Except PyExc β) (args : α) (env : PerfEnv) (tm0 : Bool)
    (hmem : env.currentMem ≤ env.peakMem) :
    (∀ r, f args = .ok r →
      logPerformanceWrapped funcName f args env tm0 =
        { result := .ok r,
          emitted := [{ level := .info, funcName := funcName,
                        elapsedSeconds := env.endTime - env.startTime,
                        currentMem := env.currentMem, peakMem := env.peakMem }],
          tracemallocTracing := false } ∧
      ∀ pr ∈ (logPerformanceWrapped funcName f args env tm0).emitted,
        pr.currentMem ≤ pr.peakMem ∧ 0 ≤ pr.currentMem) ∧
    (∀ e, f args = .error e →
      (logPerformanceWrapped funcName f args env tm0).result = .error e ∧
      (logPerformanceWrapped funcName f args env tm0).emitted = []) := by
  constructor
  · intro r hr
    constructor
    · simp [logPerformanceWrapped, hr]
    · intro pr hpr
      simp [logPerformanceWrapped, hr] at hpr
      subst hpr
      exact ⟨hmem, Nat.zero_le _⟩
  · intro e he
    exact ⟨by simp [logPerformanceWrapped, he], by simp [logPerformanceWrapped, he]⟩

/-- C6 witness: one invocation with readings `t₀ = 2, t₁ = 5`,
`(current, peak) = (100, 250)` emits exactly one info record and returns
the value unchanged. -/
theorem c6_performance_wrapper_witness :
    logPerformanceWrapped "example_function" (fun n : Nat => .ok (n * 2)) 21
      { startTime := 2, endTime := 5, currentMem := 100, peakMem := 250 } false =
      { result := .ok 42,
        emitted := [{ level := .info, funcName := "example_function",
                      elapsedSeconds := 3, currentMem := 100, peakMem := 250 }],
        tracemallocTracing := false } :=
  (c6_performance_wrapper "example_function" (fun n : Nat => .ok (n * 2)) 21
    { startTime := 2, endTime := 5, currentMem := 100, peakMem := 250 } false
    (by decide)).1 42 rfl |>.1

/-- C7 counterexample: decorating `add` with `json_log` and calling
`add(5, 3)`: the exit record's structured context is
`{'args': (5, 3), 'kwargs': {}}` — its keys are exactly `args` and
`kwargs`, so the return value is **not** attached as context; it is
embedded in the exit message text `"Exiting function add with result 8"`.
This refutes "both the call's arguments and its return value are attached
... as structured context rather than being embedded in the message
text". -/
theorem c7_counterexample :
    (jsonLogWrapped "add"
        (fun p : Int × Int => .pyList (.cons (.pyInt p.1) (.cons (.pyInt p.2) .nil)))
        (fun _ => .pyDict .nil) toString (fun p => .ok (p.1 + p.2)) (5, 3)).2 =
      [⟨.info, "Entering function add",
        some (jsonLogContext (.pyList (.cons (.pyInt 5) (.cons (.pyInt 3) .nil)))
          (.pyDict .nil))⟩,
       ⟨.info, "Exiting function add with result 8",
        some (jsonLogContext (.pyList (.cons (.pyInt 5) (.cons (.pyInt 3) .nil)))
          (.pyDict .nil))⟩] ∧
    pyDictKeys (jsonLogContext (.pyList (.cons (.pyInt 5) (.cons (.pyInt 3) .nil)))
        (.pyDict .nil)) = ["args", "kwargs"] := by
  constructor
  · simp [jsonLogWrapped]
    rfl
  · rfl

/-- C7 amended: the wrapper attaches the call's **arguments**
(`{'args': ..., 'kwargs': ...}`) as the structured context of both the
entry and the exit record, while the **return value** is embedded in the
exit record's message text (and not attached to the context); the return
value passes through unchanged and a raised exception propagates unchanged
with no exit record. -/
theorem c7_json_log_wrapper {α β : Type} (funcName : String)
    (toPyArgs toPyKwargs : α → PyValue) (strRes : β → String)
    (f : α → Except PyExc β) (args : α) :
    (∀ r, f args = .ok r →
      jsonLogWrapped funcName toPyArgs toPyKwargs strRes f args =
        (.ok r,
         [⟨.info, "Entering function " ++ funcName,
           some (jsonLogContext (toPyArgs args) (toPyKwargs args))⟩,
          ⟨.info, "Exiting function " ++ funcName ++ " with result " ++ strRes r,
           some (jsonLogContext (toPyArgs args) (toPyKwargs args))⟩])) ∧
    (∀ e, f args = .error e →
      jsonLogWrapped funcName toPyArgs toPyKwargs strRes f args =
        (.error e,
         [⟨.info, "Entering function " ++ funcName,
           some (jsonLogContext (toPyArgs args) (toPyKwargs args))⟩])) ∧
    pyDictKeys (jsonLogContext (toPyArgs args) (toPyKwargs args)) = ["args", "kwargs"] := by
  refine ⟨?_, ?_, rfl⟩ <;> intro x hx <;> simp [jsonLogWrapped, hx]

/-- C7 witness: the `multiply(5, 3)` call of the test suite. -/
theorem c7_json_log_wrapper_witness :
    jsonLogWrapped "multiply"
      (fun p : Int × Int => .pyList (.cons (.pyInt p.1) (.cons (.pyInt p.2) .nil)))
      (fun _ => .pyDict .nil) toString (fun p => .ok (p.1 * p.2)) (5, 3) =
      (.ok 15,
       [⟨.info, "Entering function multiply",
         some (jsonLogContext (.pyList (.cons (.pyInt 5) (.cons (.pyInt 3) .nil)))
           (.pyDict .nil))⟩,
        ⟨.info, "Exiting function multiply with result " ++ toString (15 : Int),
         some (jsonLogContext (.pyList (.cons (.pyInt 5) (.cons (.pyInt 3) .nil)))
           (.pyDict .nil))⟩]) :=
  (c7_json_log_wrapper "multiply"
    (fun p : Int × Int => .pyList (.cons (.pyInt p.1) (.cons (.pyInt p.2) .nil)))
    (fun _ => .pyDict .nil) toString (fun p => .ok (p.1 * p.2)) (5, 3)).1 15 rfl

/-- C8 counterexample: a well-formed record whose `context` is an object
with no native JSON serialization makes `format` raise `TypeError`, so it
does not produce JSON at all — refuting the claim for **every** well-formed
record. -/
theorem c8_counterexample :
    JsonFormatter.format
      { asctime := "2024-06-01 12:00:00,000", name := "json_logger",
        levelname := "INFO", message := "hello", funcName := "g", lineno := 99,
        context := some (.pyObj "<object object at 0x7f>") } =
      .error (.typeError "Object is not JSON serializable") := by
  simp [JsonFormatter.format, jsonDumps, formatDict, pyToJson, pyKVsToJson,
    except_ok_bind, except_error_bind, Except.map]

/-- C8 amended: for every well-formed record **whose context is
JSON-serializable (or absent)**, `format` succeeds and its output parses
back (`jsonLoads`) to an object with exactly the seven keys
`timestamp, name, level, message, context, function, line_no` in that
order; the parsed `message` is exactly the record's message (byte-for-byte
round trip), the parsed `context` is exactly the JSON image of the
record's context, and it is JSON `null` when the record carries none. -/
theorem c8_seven_keys_roundtrip (r : FmtLogRecord)
    (h : contextSerializable r = true) :
    ∃ s jctx,
      pyToJson (r.context.getD .pyNone) = .ok jctx ∧
      (r.context = none → jctx = .jNull) ∧
      JsonFormatter.format r = .ok s ∧
      jsonLoads s = some (.jObj (.cons "timestamp" (.jStr r.asctime)
        (.cons "name" (.jStr r.name) (.cons "level" (.jStr r.levelname)
        (.cons "message" (.jStr r.message) (.cons "context" jctx
        (.cons "function" (.jStr r.funcName)
        (.cons "line_no" (.jNum r.lineno) .nil)))))))) ∧
      jObjKeys (.cons "timestamp" (.jStr r.asctime)
        (.cons "name" (.jStr r.name) (.cons "level" (.jStr r.levelname)
        (.cons "message" (.jStr r.message) (.cons "context" jctx
        (.cons "function" (.jStr r.funcName)
        (.cons "line_no" (.jNum r.lineno) .nil))))))) =
        ["timestamp", "name", "level", "message", "context", "function", "line_no"] := by
  obtain ⟨jctx, hctx, hnull⟩ := context_ok_of_serializable h
  refine ⟨String.mk (serJ (.jObj (.cons "timestamp" (.jStr r.asctime)
    (.cons "name" (.jStr r.name) (.cons "level" (.jStr r.levelname)
    (.cons "message" (.jStr r.message) (.cons "context" jctx
    (.cons "function" (.jStr r.funcName)
    (.cons "line_no" (.jNum r.lineno) .nil))))))))), jctx, hctx, hnull, ?_, ?_, ?_⟩
  · rw [JsonFormatter.format, jsonDumps, formatDict_toJson r jctx hctx]
    rfl
  · exact jsonLoads_serJ _
  · rfl

/-- C8 witness: the record of the test suite's contextual JSON log entry
round-trips with the seven keys. -/
theorem c8_seven_keys_roundtrip_witness :
    ∃ s jctx,
      pyToJson ((some (PyValue.pyDict (.cons "user_id" (.pyInt 12345)
        (.cons "transaction_id" (.pyStr "abcde12345") .nil)))).getD .pyNone) = .ok jctx ∧
      ((some (PyValue.pyDict (.cons "user_id" (.pyInt 12345)
        (.cons "transaction_id" (.pyStr "abcde12345") .nil))) : Option PyValue) = none →
          jctx = .jNull) ∧
      JsonFormatter.format
        { asctime := "2024-01-01 00:00:00,005", name := "json_logger",
          levelname := "INFO",
          message := "This is a test log entry in JSON format with context.",
          funcName := "main", lineno := 50,
          context := some (.pyDict (.cons "user_id" (.pyInt 12345)
            (.cons "transaction_id" (.pyStr "abcde12345") .nil))) } = .ok s ∧
      jsonLoads s = some (.jObj (.cons "timestamp" (.jStr "2024-01-01 00:00:00,005")
        (.cons "name" (.jStr "json_logger") (.cons "level" (.jStr "INFO")
        (.cons "message"
          (.jStr "This is a test log entry in JSON format with context.")
        (.cons "context" jctx
        (.cons "function" (.jStr "main")
        (.cons "line_no" (.jNum 50) .nil)))))))) ∧
      jObjKeys (.cons "timestamp" (.jStr "2024-01-01 00:00:00,005")
        (.cons "name" (.jStr "json_logger") (.cons "level" (.jStr "INFO")
        (.cons "message"
          (.jStr "This is a test log entry in JSON format with context.")
        (.cons "context" jctx
        (.cons "function" (.jStr "main")
        (.cons "line_no" (.jNum 50) .nil))))))) =
        ["timestamp", "name", "level", "message", "context", "function", "line_no"] :=
  c8_seven_keys_roundtrip
    { asctime := "2024-01-01 00:00:00,005", name := "json_logger",
      levelname := "INFO",
      message := "This is a test log entry in JSON format with context.",
      funcName := "main", lineno := 50,
      context := some (.pyDict (.cons "user_id" (.pyInt 12345)
        (.cons "transaction_id" (.pyStr "abcde12345") .nil))) }
    (by simp [contextSerializable, jsonable, pyToJson, pyKVsToJson, except_ok_bind,
      Except.map, Except.isOk, Except.toBool])

/-- C9: when the wrapped callable raises, `log_performance`'s wrapper never
reaches `tracemalloc.stop()`: the exception propagates unchanged, no record
is emitted, and the global `tracemalloc` facility is left in the started
(tracing) state — regardless of whether it was tracing before the call. -/
theorem c9_tracemalloc_left_started {α β : Type} (funcName : String)
    (f : α → Except PyExc β) (args : α) (env : PerfEnv) (tm0 : Bool) (e : PyExc)
    (h : f args = .error e) :
    (logPerformanceWrapped funcName f args env tm0).tracemallocTracing = true ∧
    (logPerformanceWrapped funcName f args env tm0).result = .error e ∧
    (logPerformanceWrapped funcName f args env tm0).emitted = [] := by
  refine ⟨?_, ?_, ?_⟩ <;> simp [logPerformanceWrapped, h]

/-- C9 witness: a raising callable, starting from `tracemalloc` not
tracing, leaves it tracing. -/
theorem c9_tracemalloc_left_started_witness :
    (logPerformanceWrapped "boom" (fun _ : Unit => (.error (.userExc "ValueError") :
        Except PyExc Nat)) () { startTime := 0, endTime := 1, currentMem := 0, peakMem := 0 }
      false).tracemallocTracing = true ∧
    (logPerformanceWrapped "boom" (fun _ : Unit => (.error (.userExc "ValueError") :
        Except PyExc Nat)) () { startTime := 0, endTime := 1, currentMem := 0, peakMem := 0 }
      false).result = .error (.userExc "ValueError") ∧
    (logPerformanceWrapped "boom" (fun _ : Unit => (.error (.userExc "ValueError") :
        Except PyExc Nat)) () { startTime := 0, endTime := 1, currentMem := 0, peakMem := 0 }
      false).emitted = [] :=
  c9_tracemalloc_left_started "boom" _ () _ false (.userExc "ValueError") rfl

/-- Iterating the decoration effect: each evaluation appends one handler to
the one logger registered under `name` and touches no other logger. -/
theorem jsonLog_iterate (name : String) (N : Nat) : ∀ reg : Registry,
    ((((json_logDecorate name)^[N]) reg) name).handlers =
      (reg name).handlers ++
        List.replicate N { level := some Level.debug, formatter := FormatterKind.jsonFmt } ∧
    ∀ n', n' ≠ name → (((json_logDecorate name)^[N]) reg) n' = reg n' := by
  induction N with
  | zero => intro reg; simp
  | succ n ihn =>
    intro reg
    rw [Function.iterate_succ_apply]
    constructor
    · rw [(ihn (json_logDecorate name reg)).1]
      simp [json_logDecorate, configure_logger, List.replicate_succ]
    · intro n' hne
      rw [(ihn _).2 n' hne]
      simp [json_logDecorate, configure_logger, hne]

theorem filterMap_replicate_some {γ δ : Type} (N : Nat) (a : γ) (g : γ → Option δ)
    (b : δ) (hg : g a = some b) :
    List.filterMap g (List.replicate N a) = List.replicate N b := by
  induction N with
  | zero => rfl
  | succ n ihn => simp [List.replicate_succ, List.filterMap_cons, hg, ihn]

/-- C10: evaluating `json_log(name)` at decoration time rewrites exactly
the registry entry of `name`: it sets that logger's level to `DEBUG` and
appends one new stream handler (level `DEBUG`, fresh `JsonFormatter`);
decorating `N` functions with the same name therefore leaves `N`
accumulated handlers on the one shared logger, every other logger is
untouched, and an info record subsequently emitted through that logger is
rendered once per accumulated handler (`N` renderings from a fresh
registry). -/
theorem c10_json_log_mutates_shared_registry (name : String) (reg : Registry) (N : Nat) :
    (json_logDecorate name reg = fun n' =>
      if n' = name then
        { level := some Level.debug,
          handlers := (reg name).handlers ++
            [{ level := some Level.debug, formatter := FormatterKind.jsonFmt }] }
      else reg n') ∧
    ((((json_logDecorate name)^[N]) reg) name).handlers =
      (reg name).handlers ++
        List.replicate N { level := some Level.debug, formatter := FormatterKind.jsonFmt } ∧
    ((((json_logDecorate name)^[N + 1]) reg) name).level = some Level.debug ∧
    (∀ n', n' ≠ name → (((json_logDecorate name)^[N]) reg) n' = reg n') ∧
    (callHandlers ((((json_logDecorate name)^[N]) freshRegistry) name) Level.info).length
      = N := by
  refine ⟨rfl, (jsonLog_iterate name N reg).1, ?_, (jsonLog_iterate name N reg).2, ?_⟩
  · rw [Function.iterate_succ_apply']
    simp [json_logDecorate, configure_logger]
  · rw [callHandlers, (jsonLog_iterate name N freshRegistry).1]
    simp only [freshRegistry, freshLogger, List.nil_append]
    rw [filterMap_replicate_some N
      ({ level := some Level.debug, formatter := FormatterKind.jsonFmt } : HandlerM)
      (fun (h : HandlerM) =>
        if passesLevel h.level Level.info = true then some h.formatter else none)
      FormatterKind.jsonFmt (by decide)]
    simp

/-- C10 witness: decorating two functions with `json_log('json_logger')`
leaves two handlers on that logger, leaves `other_logger` untouched, and
an info record is rendered twice. -/
theorem c10_json_log_mutates_shared_registry_witness :
    ((((json_logDecorate "json_logger")^[2]) freshRegistry) "json_logger").handlers =
      (freshRegistry "json_logger").handlers ++
        List.replicate 2 { level := some Level.debug, formatter := FormatterKind.jsonFmt } ∧
    ((((json_logDecorate "json_logger")^[2 + 1]) freshRegistry) "json_logger").level =
      some Level.debug ∧
    (((json_logDecorate "json_logger")^[2]) freshRegistry) "other_logger" =
      freshRegistry "other_logger" ∧
    (callHandlers ((((json_logDecorate "json_logger")^[2]) freshRegistry) "json_logger")
      Level.info).length = 2 :=
  ⟨(c10_json_log_mutates_shared_registry "json_logger" freshRegistry 2).2.1,
   (c10_json_log_mutates_shared_registry "json_logger" freshRegistry 2).2.2.1,
   (c10_json_log_mutates_shared_registry "json_logger" freshRegistry 2).2.2.2.1
     "other_logger" (by decide),
   (c10_json_log_mutates_shared_registry "json_logger" freshRegistry 2).2.2.2.2⟩

end EnhancedLogger
